import Mathlib

/-!
# Verification of the code-sidecar agent execution core

Shallow embedding of the agent runtime:
* the Task orchestrator's ReAct loop (`src/src/core/task.ts`,
  `src/src/core/assistantStreaming.ts`, `src/src/core/toolCallHandler.ts`),
* the MCP protocol client (`MCPClient` in the repository),
* the MCP manager / provider registry (`MCPManager`).

Pure state is embedded as Lean structures; the model stream, the streaming
parser's finalized output and the tool executor are oracles supplied as
plain data / functions; externally visible side effects (webview messages,
status snapshots, promise settlements) are accumulated in explicit event
lists.
-/

namespace CodeSidecar

/-! ## Data model: tool invocations, tool results, content blocks

`ToolUse` / `ToolResult` mirror `code-sidecar-shared/types/tools` as the
fields are used throughout `src` (`name`, `params`, `partial`, `id`;
`tool_name`, `content`, `is_error`, `tool_call_id`).  The TypeScript field
`partial` is spelled `isPartial` here. -/

structure ToolUse where
  name : String
  params : List (String × String)
  isPartial : Bool
  id : Option String
deriving DecidableEq

structure ToolResult where
  tool_name : String
  content : String
  is_error : Bool
  tool_call_id : Option String
deriving DecidableEq

/-- Content block produced by the streaming parser: free text or a tool
invocation (`AssistantMessageContent` in `src/src/core/assistantMessage`). -/
inductive AssistantMessageContent where
  | text (content : String) (isPartial : Bool)
  | tool_use (tu : ToolUse)
deriving DecidableEq

/-- `buildAssistantContent` from `src/src/core/assistantStreaming.ts`
(lines 57-72): if the parser produced blocks, use them; otherwise wrap the
whole (trimmed) raw assistant message as a single non-partial text block. -/
def buildAssistantContent (parsedBlocks : List AssistantMessageContent)
    (assistantMessage : String) : List AssistantMessageContent :=
  if parsedBlocks.length > 0 then parsedBlocks
  else [AssistantMessageContent.text assistantMessage.trim false]

/-- `hasAttemptCompletion` from `src/src/core/toolCallHandler.ts`. -/
def hasAttemptCompletion (toolCalls : List ToolUse) : Bool :=
  toolCalls.any fun toolCall => toolCall.name == "attempt_completion"

/-! ## Task state and events -/

/-- Conversation history entry (`HistoryItem` as used by `Task`): role plus
payload; tool results are stored structurally. -/
inductive HistoryItem where
  | user (content : String)
  | assistant (content : String)
  | tool_result (r : ToolResult)
deriving DecidableEq

/-- Externally observable Task effects.  `streamOpened` marks one model
stream being created (`apiHandler.createMessage`); the rest are the webview
messages the Task posts (`error`, `tool_call`, `tool_result`,
`task_complete`).  Display-only `stream_chunk` and `token_usage` messages
are not modelled. -/
inductive TaskEvent where
  | streamOpened
  | errorMsg (message : String)
  | toolCall (tc : ToolUse)
  | toolResult (r : ToolResult)
  | taskComplete
deriving DecidableEq

/-- The mutable fields of `Task` (src/src/core/task.ts) that the control
loop reads or writes, plus the accumulated event list. -/
structure TaskState where
  loopCount : Nat
  maxLoopCount : Nat
  isCancelled : Bool
  isCompleted : Bool
  history : List HistoryItem
  events : List TaskEvent
deriving DecidableEq

/-- `Task.shouldContinueLoop` (task.ts lines 341-343). -/
def TaskState.shouldContinueLoop (s : TaskState) : Bool :=
  s.loopCount < s.maxLoopCount

/-- `Task.completeTask` (task.ts lines 414-427): idempotent; on the first
call marks the task completed and posts `task_complete`.  The optional
`task_diff` message is not modelled. -/
def TaskState.completeTask (s : TaskState) : TaskState :=
  if s.isCompleted then s
  else { s with isCompleted := true, events := s.events ++ [TaskEvent.taskComplete] }

/-- `Task.cancel` (task.ts lines 404-412): a second call is a no-op; the
first call sets the cancellation flag, aborts the in-flight stream and runs
`completeTask`. -/
def TaskState.cancel (s : TaskState) : TaskState :=
  if s.isCancelled then s
  else TaskState.completeTask { s with isCancelled := true }

/-- The corrective instruction `Task.noToolsUsed` returns (task.ts lines
452-475); the tail of the reminder text (XML examples) is elided, the claims
only use this string as an opaque history marker. -/
def noToolsUsed : String :=
  "[ERROR] You did not use a tool in your previous response! Please retry with a tool use."

/-- The limit-exceeded notice posted as an `error` message (task.ts lines
174-177). -/
def limitMessage (maxLoopCount : Nat) : String :=
  "已达到最大循环次数限制 (" ++ toString maxLoopCount ++
    ")。任务可能过于复杂，请简化任务或分解为多个步骤。"

/-- `if (toolCall.id) result.tool_call_id = toolCall.id` from
`ToolCallHandler.executeToolCalls`; JavaScript truthiness makes the empty
string falsy. -/
def attachToolCallId (tc : ToolUse) (r : ToolResult) : ToolResult :=
  match tc.id with
  | some i => if i = "" then r else { r with tool_call_id := some i }
  | none => r

/-- `ToolCallHandler.executeToolCalls` (toolCallHandler.ts lines 70-98):
sequentially, in emission order, checking the cancellation flag before each
dispatch and stopping the batch early if set; publishes a `tool_call`
notice before executing each call.  `exec` is the tool-executor oracle. -/
def executeToolCalls (isCancelled : Bool) (exec : ToolUse → ToolResult) :
    List ToolUse → List TaskEvent × List ToolResult
  | [] => ([], [])
  | tc :: rest =>
    if isCancelled then ([], [])
    else
      let r := attachToolCallId tc (exec tc)
      let (evs, rs) := executeToolCalls isCancelled exec rest
      (TaskEvent.toolCall tc :: evs, r :: rs)

/-- The post-batch loop of `recursivelyMakeRequest` (task.ts lines 296-320):
each tool result is appended to history as a `tool_result` turn and posted
to the webview. -/
def recordToolResults : TaskState → List ToolResult → TaskState
  | s, [] => s
  | s, r :: rest =>
    recordToolResults
      { s with
        history := s.history ++ [HistoryItem.tool_result r],
        events := s.events ++ [TaskEvent.toolResult r] }
      rest

/-- One model turn as produced by streaming + the parser: the parser's
finalized content blocks and the raw accumulated assistant message. -/
structure ModelTurn where
  parsedBlocks : List AssistantMessageContent
  assistantMessage : String
deriving DecidableEq

/-- The per-iteration body of `Task.recursivelyMakeRequest` after the
counter was incremented and the model stream was streamed to completion
(task.ts lines 241-332): build the assistant content, push the assistant
turn, extract tool invocations; with none, either append the corrective
instruction and continue (`true`) or — entirely empty content —
`completeTask` and stop (`false`); with some, execute the batch
sequentially, record the results, then `completeTask` and stop if
`attempt_completion` was among them, else continue. -/
def processTurn (exec : ToolUse → ToolResult) (s : TaskState) (t : ModelTurn) :
    TaskState × Bool :=
  let assistantContent := buildAssistantContent t.parsedBlocks t.assistantMessage
  let s2 : TaskState :=
    { s with history := s.history ++ [HistoryItem.assistant t.assistantMessage] }
  let toolCalls := assistantContent.filterMap fun b =>
    match b with
    | AssistantMessageContent.tool_use tu => some tu
    | _ => none
  if toolCalls.isEmpty then
    if assistantContent.any fun b =>
        match b with
        | AssistantMessageContent.text _ _ => true
        | _ => false then
      ({ s2 with history := s2.history ++ [HistoryItem.user noToolsUsed] }, true)
    else (s2.completeTask, false)
  else
    let hasCompletion := hasAttemptCompletion toolCalls
    let (batchEvents, results) := executeToolCalls s2.isCancelled exec toolCalls
    let s3 := recordToolResults { s2 with events := s2.events ++ batchEvents } results
    if hasCompletion then (s3.completeTask, false) else (s3, true)

/-- `Task.recursivelyMakeRequest` (task.ts lines 163-336), driven by an
oracle list of model turns (one entry per model stream the loop would
open; if the oracle is exhausted where the code would open another stream,
the run simply stops).  Per iteration: cancellation check, loop-limit
check (limit notice + `completeTask`), increment the counter, open one
stream, then `processTurn` on its finalized content. -/
def TaskState.recursivelyMakeRequest (exec : ToolUse → ToolResult) :
    List ModelTurn → TaskState → TaskState
  | turns, s =>
    if s.isCancelled then s
    else if !s.shouldContinueLoop then
      TaskState.completeTask
        { s with events := s.events ++ [TaskEvent.errorMsg (limitMessage s.maxLoopCount)] }
    else
      match turns with
      | [] => s
      | t :: rest =>
        match processTurn exec
            { s with loopCount := s.loopCount + 1,
                     events := s.events ++ [TaskEvent.streamOpened] } t with
        | (s', true) => TaskState.recursivelyMakeRequest exec rest s'
        | (s', false) => s'

/-- Number of model streams opened, read off the event list. -/
def streamCount (evs : List TaskEvent) : Nat :=
  evs.countP fun e =>
    match e with
    | TaskEvent.streamOpened => true
    | _ => false

/-- Number of `task_complete` termination signals in the event list. -/
def completeCount (evs : List TaskEvent) : Nat :=
  evs.countP fun e =>
    match e with
    | TaskEvent.taskComplete => true
    | _ => false

/-! ## MCP protocol client (`MCPClient`)

One client owns one provider subprocess and one line-delimited JSON-RPC
session.  The subprocess itself is an oracle: a `ConnectOutcome` says how
the spawn/handshake went, and response lines / timer firings / process
exits are fed in as explicit operations. -/

/-- `MCPConnectionStatus` from `code-sidecar-shared/types/mcp`. -/
inductive MCPStatus where
  | disconnected
  | connecting
  | connected
  | error
deriving DecidableEq

/-- Why a pending request's promise was rejected.  `disconnected` stands
for the `"Client disconnected"` error, `timeout` for
`"Request timeout: <method>"` (the method-name suffix is elided),
`rpcError` carries the JSON-RPC error's `message`. -/
inductive RejectReason where
  | timeout
  | rpcError (msg : String)
  | disconnected
deriving DecidableEq

/-- Mutable fields of `MCPClient`: the private id counter, the pending
request map (modelled by its key list; the timer of each entry is live
exactly while the key is present), the line buffer, the discovered tool
catalog (by tool name), status, last error, and whether the subprocess
handle is alive (`this.process !== null` and not yet killed/exited). -/
structure MCPClientState where
  requestId : Nat
  pending : List Nat
  buffer : String
  tools : List String
  status : MCPStatus
  errorMsg : Option String
  processLive : Bool
deriving DecidableEq

/-- A fresh client before `connect()` is called. -/
def initialClient : MCPClientState :=
  { requestId := 0, pending := [], buffer := "", tools := [],
    status := MCPStatus.disconnected, errorMsg := none, processLive := false }

/-- Externally observable client effects: `onStatusChange` snapshots
(`setStatus` → `getState()`), promise resolutions/rejections of pending
requests, and the ids of issued requests (writes of framed requests). -/
inductive ClientEvent where
  | publish (st : MCPStatus) (tools : List String) (err : Option String)
  | resolved (id : Nat)
  | rejected (id : Nat) (reason : RejectReason)
  | requestSent (id : Nat)
deriving DecidableEq

/-- `MCPClient.setStatus`: store status and error, publish a full state
snapshot. -/
def setStatus (s : MCPClientState) (st : MCPStatus) (err : Option String) :
    MCPClientState × ClientEvent :=
  ({ s with status := st, errorMsg := err },
   ClientEvent.publish st s.tools err)

/-- `MCPClient.disconnect` (lines 198-215): kill the subprocess if still
running, reject every pending request with the disconnection error, clear
the pending map, the tool catalog and the line buffer, set status to
`disconnected` and publish. -/
def MCPClientState.disconnect (s : MCPClientState) : MCPClientState × List ClientEvent :=
  let rejections := s.pending.map fun id => ClientEvent.rejected id RejectReason.disconnected
  let s2 : MCPClientState :=
    { s with processLive := false, pending := [], tools := [], buffer := "" }
  let (s3, e) := setStatus s2 MCPStatus.disconnected none
  (s3, rejections ++ [e])

/-- `MCPClient.handleDisconnect` (lines 217-221): run `disconnect` unless
the status already is `disconnected`. -/
def handleDisconnect (s : MCPClientState) : MCPClientState × List ClientEvent :=
  if s.status ≠ MCPStatus.disconnected then s.disconnect else (s, [])

/-- The subprocess `exit` event outside of `connect`'s grace window: the
handle is dead, then `handleDisconnect` runs. -/
def processExit (s : MCPClientState) : MCPClientState × List ClientEvent :=
  handleDisconnect { s with processLive := false }

/-- One decoded JSON-RPC line from the server: a response (with `id` and
optionally an `error` member) or a notification. -/
inductive RPCMessage where
  | response (id : Nat) (isError : Bool) (errMsg : String)
  | notif (method : String)
deriving DecidableEq

/-- `MCPClient.handleMessage` (lines 251-269): a response whose id matches
a pending entry clears its timer, removes the entry and settles it
(reject on an `error` member, resolve otherwise); an unmatched id does
nothing; a notification is only logged. -/
def MCPClientState.handleMessage (s : MCPClientState) (m : RPCMessage) :
    MCPClientState × List ClientEvent :=
  match m with
  | RPCMessage.response id isError errMsg =>
    if id ∈ s.pending then
      let s2 : MCPClientState := { s with pending := s.pending.erase id }
      if isError then (s2, [ClientEvent.rejected id (RejectReason.rpcError errMsg)])
      else (s2, [ClientEvent.resolved id])
    else (s, [])
  | RPCMessage.notif _ => (s, [])

/-- The 30s timer of the pending entry `id` fires (sendRequest lines
288-291): delete the entry and reject.  A timer only fires while its entry
is pending — `handleMessage` and `disconnect` both `clearTimeout` when they
remove an entry (and rejecting an already-settled promise would be a
no-op), hence the guard. -/
def timerFire (s : MCPClientState) (id : Nat) : MCPClientState × List ClientEvent :=
  if id ∈ s.pending then
    ({ s with pending := s.pending.erase id },
     [ClientEvent.rejected id RejectReason.timeout])
  else (s, [])

/-- `MCPClient.sendRequest` (lines 274-302): fails immediately when there
is no live subprocess stdin; otherwise issues the next id from the strictly
increasing counter, registers a pending entry with a timeout and writes the
framed request. -/
def MCPClientState.sendRequest (s : MCPClientState) :
    Option (MCPClientState × Nat) :=
  if s.processLive then
    let id := s.requestId + 1
    some ({ s with requestId := id, pending := s.pending ++ [id] }, id)
  else none

/-- How one `connect()` attempt plays out, decided by the environment:
the subprocess exits within the ~500ms grace window (`earlyExit`), the
spawn itself errors (`spawnError`), the `initialize` or `tools/list`
request fails (`handshakeFail`, with `initSucceeded` telling whether the
first request had succeeded), or the full handshake succeeds and
`tools/list` returns the catalog (`ok`). -/
inductive ConnectOutcome where
  | earlyExit (code : Int) (stderr : String)
  | spawnError (msg : String)
  | handshakeFail (initSucceeded : Bool) (reason : RejectReason)
  | ok (tools : List String)
deriving DecidableEq

/-- The error message built in the `exit` handler / the grace-window check
(connect lines 146-170): for a nonzero exit code the message embeds any
captured stderr, otherwise `connect` throws "Process exited unexpectedly". -/
def earlyExitMessage (code : Int) (stderr : String) : String :=
  if code ≠ 0 then
    "MCP server process exited with code " ++ toString code ++ ". " ++
      (if stderr ≠ "" then "Error: " ++ stderr.trim
       else "Check if the command is correct and the package is installed.")
  else "Process exited unexpectedly"

/-- Message attached to a failed handshake request (used for
`setStatus("error", message)`). -/
def rejectMessage : RejectReason → String
  | RejectReason.timeout => "Request timeout"
  | RejectReason.rpcError msg => msg
  | RejectReason.disconnected => "Client disconnected"

/-- `MCPClient.connect` (lines 102-193).  Returns the state, the emitted
events, and whether the call threw (failures rethrow after updating the
status).  Already `connected`/`connecting` clients return immediately.
Otherwise: publish `connecting`, spawn; on an exit inside the grace window
the `exit` handler runs `handleDisconnect` (which publishes
`disconnected`), then the grace-window check throws and the catch publishes
`error` and runs `disconnect` again; on a spawn error the `error` handler
publishes `error`, then the catch publishes `error` again and disconnects;
on a handshake failure the failing request settles once, the catch
publishes `error` and disconnects; on success the two handshake requests
(`initialize`, `tools/list`) resolve, the catalog is stored and `connected`
is published. -/
def MCPClientState.connect (s : MCPClientState) (o : ConnectOutcome) :
    MCPClientState × List ClientEvent × Bool :=
  if s.status = MCPStatus.connected ∨ s.status = MCPStatus.connecting then
    (s, [], false)
  else
    let (s1, e1) := setStatus s MCPStatus.connecting none
    let s1 : MCPClientState := { s1 with processLive := true }
    match o with
    | ConnectOutcome.earlyExit code stderr =>
      let (s2, evs2) := processExit s1
      let msg := earlyExitMessage code stderr
      let (s3, e3) := setStatus s2 MCPStatus.error (some msg)
      let (s4, evs4) := s3.disconnect
      (s4, e1 :: evs2 ++ e3 :: evs4, true)
    | ConnectOutcome.spawnError msg =>
      let (s2, e2) := setStatus { s1 with processLive := false } MCPStatus.error (some msg)
      let (s3, e3) := setStatus s2 MCPStatus.error (some msg)
      let (s4, evs4) := s3.disconnect
      (s4, e1 :: e2 :: e3 :: evs4, true)
    | ConnectOutcome.handshakeFail initSucceeded reason =>
      let id1 := s1.requestId + 1
      let settles :=
        if initSucceeded then
          [ClientEvent.requestSent id1, ClientEvent.resolved id1,
           ClientEvent.requestSent (id1 + 1), ClientEvent.rejected (id1 + 1) reason]
        else [ClientEvent.requestSent id1, ClientEvent.rejected id1 reason]
      let s2 : MCPClientState :=
        { s1 with requestId := if initSucceeded then id1 + 1 else id1 }
      let (s3, e3) := setStatus s2 MCPStatus.error (some (rejectMessage reason))
      let (s4, evs4) := s3.disconnect
      (s4, e1 :: settles ++ e3 :: evs4, true)
    | ConnectOutcome.ok tools =>
      let id1 := s1.requestId + 1
      let s2 : MCPClientState := { s1 with requestId := id1 + 1, tools := tools }
      let (s3, e3) := setStatus s2 MCPStatus.connected none
      (s3, [e1, ClientEvent.requestSent id1, ClientEvent.resolved id1,
            ClientEvent.requestSent (id1 + 1), ClientEvent.resolved (id1 + 1), e3], false)

/-- One externally triggered client operation. -/
inductive ClientOp where
  | connect (o : ConnectOutcome)
  | disconnect
  | processExit
  | message (m : RPCMessage)
  | timerFire (id : Nat)
  | send
deriving DecidableEq

/-- Apply one operation to the client. -/
def stepOp (s : MCPClientState) : ClientOp → MCPClientState × List ClientEvent
  | ClientOp.connect o =>
    let (s', evs, _) := s.connect o
    (s', evs)
  | ClientOp.disconnect => s.disconnect
  | ClientOp.processExit => processExit s
  | ClientOp.message m => s.handleMessage m
  | ClientOp.timerFire id => timerFire s id
  | ClientOp.send =>
    match s.sendRequest with
    | some (s', id) => (s', [ClientEvent.requestSent id])
    | none => (s, [])

/-- Run a whole operation sequence, concatenating the emitted events. -/
def runOps (s : MCPClientState) : List ClientOp → MCPClientState × List ClientEvent
  | [] => (s, [])
  | op :: rest =>
    let (s1, evs1) := stepOp s op
    let (s2, evs2) := runOps s1 rest
    (s2, evs1 ++ evs2)

/-- The sequence of statuses published to the subscriber. -/
def publishedStatuses : List ClientEvent → List MCPStatus
  | [] => []
  | ClientEvent.publish st _ _ :: rest => st :: publishedStatuses rest
  | _ :: rest => publishedStatuses rest

/-- The ids of issued requests, in issue order. -/
def issuedIds : List ClientEvent → List Nat
  | [] => []
  | ClientEvent.requestSent id :: rest => id :: issuedIds rest
  | _ :: rest => issuedIds rest

/-- Number of settlements (resolve or reject) of request `id`. -/
def settleCount (id : Nat) : List ClientEvent → Nat
  | [] => 0
  | ClientEvent.resolved i :: rest => (if i = id then 1 else 0) + settleCount id rest
  | ClientEvent.rejected i _ :: rest => (if i = id then 1 else 0) + settleCount id rest
  | _ :: rest => settleCount id rest

/-- 1 when `id` has a pending entry. -/
def pendingBit (id : Nat) (s : MCPClientState) : Nat :=
  if id ∈ s.pending then 1 else 0

/-- 1 when `id` has not yet been issued (it lies above the id counter). -/
def futureBit (id : Nat) (s : MCPClientState) : Nat :=
  if s.requestId < id then 1 else 0

/-- Settlement potential of request `id`: how many more settlements of
`id` a run can still produce. -/
def settlePotential (id : Nat) (s : MCPClientState) : Nat :=
  pendingBit id s + futureBit id s

/-- Well-formedness of a client's pending map, as holds for the real
`Map<number, PendingRequest>`: keys are distinct and were issued by the id
counter. -/
def GoodClient (s : MCPClientState) : Prop :=
  s.pending.Nodup ∧ ∀ i ∈ s.pending, i ≤ s.requestId

/-- `chainOK r l` : every adjacent pair of `l` either repeats a status or
is an `r`-transition. -/
def chainOK (r : MCPStatus → MCPStatus → Bool) : List MCPStatus → Bool
  | a :: b :: rest => (a == b || r a b) && chainOK r (b :: rest)
  | _ => true

/-- Last element of a status list, with default. -/
def lastStatus : List MCPStatus → MCPStatus → MCPStatus
  | [], d => d
  | a :: rest, _ => lastStatus rest a

/-- The transition relation the specification states:
`disconnected→connecting→{connected,error}→disconnected`, with `error`
non-terminal (`connect()` re-enters `connecting`). -/
def specAllowed : MCPStatus → MCPStatus → Bool
  | MCPStatus.disconnected, MCPStatus.connecting => true
  | MCPStatus.connecting, MCPStatus.connected => true
  | MCPStatus.connecting, MCPStatus.error => true
  | MCPStatus.connected, MCPStatus.disconnected => true
  | MCPStatus.error, MCPStatus.disconnected => true
  | MCPStatus.error, MCPStatus.connecting => true
  | _, _ => false

/-- The transition relation the code actually obeys: the specified arrows
plus the two extra arrows exercised by the early-exit failure path of
`connect` (`connecting→disconnected` from the exit-handler cleanup,
`disconnected→error` when the grace-window check then surfaces the
failure). -/
def amendedAllowed : MCPStatus → MCPStatus → Bool
  | MCPStatus.connecting, MCPStatus.disconnected => true
  | MCPStatus.disconnected, MCPStatus.error => true
  | a, b => specAllowed a b

/-! ## MCP manager / provider registry (`MCPManager`) -/

/-- `MCPServerConfig` from `code-sidecar-shared/types/mcp`; `env` records
are modelled as key/value lists. -/
structure MCPServerConfig where
  id : String
  name : String
  description : Option String
  command : String
  args : Option (List String)
  env : Option (List (String × String))
  enabled : Bool
  autoConnect : Option Bool
deriving DecidableEq

/-- `MCPMarketItem` from `code-sidecar-shared/types/mcp` (category as a
plain string). -/
structure MCPMarketItem where
  id : String
  name : String
  description : String
  author : String
  repository : Option String
  command : String
  args : Option (List String)
  env : Option (List (String × String))
  category : String
  tags : Option (List String)
  featured : Option Bool
deriving DecidableEq

/-- The `${workspaceFolder}` placeholder appearing in market item
arguments. -/
def workspacePlaceholder : String := "$\x7bworkspaceFolder\x7d"

/-- The curated `MCP_MARKET_ITEMS` catalog (MCPManager, lines 391-516). -/
def MCP_MARKET_ITEMS : List MCPMarketItem :=
  [{ id := "filesystem", name := "Filesystem",
     description := "Read, write, and manage files on the local filesystem",
     author := "Anthropic",
     repository := some "https://github.com/modelcontextprotocol/servers",
     command := "npx",
     args := some ["-y", "@modelcontextprotocol/server-filesystem@latest",
                   workspacePlaceholder],
     env := none, category := "file-system",
     tags := some ["files", "directories", "io"], featured := some true },
   { id := "github", name := "GitHub",
     description := "Interact with GitHub repositories, issues, and pull requests",
     author := "Anthropic",
     repository := some "https://github.com/modelcontextprotocol/servers",
     command := "npx",
     args := some ["-y", "@modelcontextprotocol/server-github@latest"],
     env := some [("GITHUB_PERSONAL_ACCESS_TOKEN", "")],
     category := "development",
     tags := some ["git", "github", "vcs"], featured := some true },
   { id := "postgres", name := "PostgreSQL",
     description := "Query and manage PostgreSQL databases",
     author := "Anthropic",
     repository := some "https://github.com/modelcontextprotocol/servers",
     command := "npx",
     args := some ["-y", "@modelcontextprotocol/server-postgres@latest"],
     env := some [("POSTGRES_CONNECTION_STRING", "")],
     category := "database",
     tags := some ["database", "sql", "postgres"], featured := some true },
   { id := "sqlite", name := "SQLite",
     description := "Query and manage SQLite databases",
     author := "Anthropic",
     repository := some "https://github.com/modelcontextprotocol/servers",
     command := "npx",
     args := some ["-y", "@modelcontextprotocol/server-sqlite@latest",
                   "--db-path", workspacePlaceholder ++ "/database.db"],
     env := none, category := "database",
     tags := some ["database", "sql", "sqlite"], featured := none },
   { id := "fetch", name := "Fetch",
     description := "Fetch and parse content from URLs",
     author := "Anthropic",
     repository := some "https://github.com/modelcontextprotocol/servers",
     command := "npx",
     args := some ["-y", "@modelcontextprotocol/server-fetch@latest"],
     env := none, category := "web",
     tags := some ["http", "fetch", "web"], featured := none },
   { id := "puppeteer", name := "Puppeteer",
     description := "Browser automation and web scraping",
     author := "Anthropic",
     repository := some "https://github.com/modelcontextprotocol/servers",
     command := "npx",
     args := some ["-y", "@modelcontextprotocol/server-puppeteer@latest"],
     env := none, category := "web",
     tags := some ["browser", "automation", "scraping"], featured := none },
   { id := "brave-search", name := "Brave Search",
     description := "Search the web using Brave Search API",
     author := "Anthropic",
     repository := some "https://github.com/modelcontextprotocol/servers",
     command := "npx",
     args := some ["-y", "@modelcontextprotocol/server-brave-search@latest"],
     env := some [("BRAVE_API_KEY", "")], category := "web",
     tags := some ["search", "web"], featured := none },
   { id := "memory", name := "Memory",
     description := "Persistent memory storage for conversations",
     author := "Anthropic",
     repository := some "https://github.com/modelcontextprotocol/servers",
     command := "npx",
     args := some ["-y", "@modelcontextprotocol/server-memory@latest"],
     env := none, category := "productivity",
     tags := some ["memory", "storage", "persistence"], featured := none },
   { id := "sequential-thinking", name := "Sequential Thinking",
     description := "Step-by-step reasoning and problem solving",
     author := "Anthropic",
     repository := some "https://github.com/modelcontextprotocol/servers",
     command := "npx",
     args := some ["-y", "@modelcontextprotocol/server-sequential-thinking@latest"],
     env := none, category := "ai",
     tags := some ["reasoning", "thinking", "ai"], featured := none },
   { id := "everything", name := "Everything",
     description := "Fast file search using Everything search engine (Windows)",
     author := "Community", repository := none,
     command := "npx",
     args := some ["-y", "@modelcontextprotocol/server-everything@latest"],
     env := none, category := "file-system",
     tags := some ["search", "files", "windows"], featured := none }]

/-- Replace the first occurrence of `pat` in a character list. -/
def replaceFirstChars (pat rep : List Char) : List Char → List Char
  | [] => []
  | c :: rest =>
    if pat.isPrefixOf (c :: rest) then rep ++ (c :: rest).drop pat.length
    else c :: replaceFirstChars pat rep rest

/-- JavaScript `String.prototype.replace` with a string pattern: replaces
only the first occurrence (an empty pattern inserts at the start). -/
def jsReplaceFirst (s pat rep : String) : String :=
  if pat = "" then rep ++ s
  else String.mk (replaceFirstChars pat.toList rep.toList s.toList)

/-- The configuration-list part of `MCPManager`'s state; `nextServerSeq`
models the `mcp-<timestamp>-<random>` id generation as a fresh counter. -/
structure MCPConfigStore where
  configs : List MCPServerConfig
  nextServerSeq : Nat
deriving DecidableEq

/-- `MCPManager.addServer` (lines 613-626): generate a fresh id, append the
new definition and persist. -/
def addServer (st : MCPConfigStore) (server : MCPServerConfig) :
    MCPConfigStore × MCPServerConfig :=
  let newServer := { server with id := "mcp-" ++ toString st.nextServerSeq }
  ({ st with configs := st.configs ++ [newServer],
             nextServerSeq := st.nextServerSeq + 1 },
   newServer)

/-- `MCPManager.installFromMarket` (lines 775-807): look the item up in the
catalog, reject when an existing definition has the same command and
arguments (the code compares `JSON.stringify(c.args)` with
`JSON.stringify(item.args)`, which on string arrays is plain equality of
the arrays, with both-`undefined` equal), substitute the workspace-folder
placeholder into the arguments and add the result as a new enabled,
non-auto-connect definition. -/
def installFromMarket (workspaceFolder : String) (st : MCPConfigStore)
    (itemId : String) : Except String (MCPConfigStore × MCPServerConfig) :=
  match MCP_MARKET_ITEMS.find? (fun i => i.id == itemId) with
  | none => Except.error ("Market item " ++ itemId ++ " not found")
  | some item =>
    match st.configs.find? (fun c => c.command == item.command && c.args == item.args) with
    | some _ => Except.error (item.name ++ " is already installed")
    | none =>
      let processedArgs := item.args.map fun args =>
        args.map fun a => jsReplaceFirst a workspacePlaceholder workspaceFolder
      Except.ok (addServer st
        { id := "", name := item.name, description := some item.description,
          command := item.command, args := processedArgs, env := item.env,
          enabled := true, autoConnect := some false })

/-- Install the same market item twice in a row (the scenario of the
duplicate-rejection property). -/
def installTwice (workspaceFolder itemId : String) (st : MCPConfigStore) :
    Except String MCPConfigStore := do
  let (st1, _) ← installFromMarket workspaceFolder st itemId
  let (st2, _) ← installFromMarket workspaceFolder st1 itemId
  pure st2

/-- One `MCPClient` instance as owned by the manager: an instance tag
(object identity), the provider id it was built for, and its state. -/
structure ManagedClient where
  inst : Nat
  serverId : String
  st : MCPClientState
deriving DecidableEq

/-- The live-client map and related `MCPManager` state.  `clients` is the
`Map<string, MCPClient>` as an association list; `orphans` collects client
instances that were overwritten in the map without being disconnected (the
code drops the reference; the object and its subprocess live on);
`nextInst` generates instance tags. -/
structure MCPManagerState where
  configs : List MCPServerConfig
  clients : List (String × ManagedClient)
  orphans : List ManagedClient
  nextInst : Nat
deriving DecidableEq

/-- `this.clients.get(serverId)`. -/
def lookupClient (m : MCPManagerState) (serverId : String) : Option ManagedClient :=
  (m.clients.find? fun p => p.1 == serverId).map fun p => p.2

/-- `this.clients.set(serverId, client)`: replace the entry if the key is
present, append otherwise. -/
def setClient (clients : List (String × ManagedClient)) (serverId : String)
    (c : ManagedClient) : List (String × ManagedClient) :=
  if clients.any fun p => p.1 == serverId then
    clients.map fun p => if p.1 == serverId then (serverId, c) else p
  else clients ++ [(serverId, c)]

/-- Result of `MCPManager.connectServer`: the thrown not-found / disabled
errors carry no state change; a connect that throws still leaves the newly
created client in the map (`failed`). -/
inductive ConnectServerResult where
  | ok (m : MCPManagerState) (evs : List ClientEvent)
  | failed (m : MCPManagerState) (evs : List ClientEvent)
  | notFound (msg : String)
  | disabled (msg : String)
deriving DecidableEq

/-- The create-and-connect tail of `connectServer` (lines 691-704): build a
fresh `MCPClient`, put it into the map (overwriting — not disconnecting —
any previous instance), and run its `connect`. -/
def connectFresh (m : MCPManagerState) (serverId : String) (o : ConnectOutcome)
    (old : Option ManagedClient) : ConnectServerResult :=
  let (cst, evs, threw) := initialClient.connect o
  let newClient : ManagedClient := { inst := m.nextInst, serverId := serverId, st := cst }
  let m' : MCPManagerState :=
    { m with clients := setClient m.clients serverId newClient,
             orphans := m.orphans ++ old.toList,
             nextInst := m.nextInst + 1 }
  if threw then ConnectServerResult.failed m' evs else ConnectServerResult.ok m' evs

/-- `MCPManager.connectServer` (lines 675-704): unknown id and disabled
definitions throw; a registered client whose status is `connected` makes
the call a no-op; otherwise (including a client still `connecting`) a fresh
client is created, registered under the id and connected. -/
def connectServer (m : MCPManagerState) (serverId : String) (o : ConnectOutcome) :
    ConnectServerResult :=
  match m.configs.find? fun c => c.id == serverId with
  | none => ConnectServerResult.notFound ("Server " ++ serverId ++ " not found")
  | some config =>
    if config.enabled then
      match lookupClient m serverId with
      | some c =>
        if c.st.status = MCPStatus.connected then ConnectServerResult.ok m []
        else connectFresh m serverId o (some c)
      | none => connectFresh m serverId o none
    else ConnectServerResult.disabled ("Server " ++ config.name ++ " is disabled")

/-- Extract the manager state a `connectServer` call left behind. -/
def resultState : ConnectServerResult → Option MCPManagerState
  | ConnectServerResult.ok m _ => some m
  | ConnectServerResult.failed m _ => some m
  | _ => none

/-- A client is live while it owns a running subprocess. -/
def ManagedClient.isLive (c : ManagedClient) : Bool := c.st.processLive

/-- Number of live client instances existing for a provider id: registered
ones plus orphaned ones. -/
def liveClientCount (m : MCPManagerState) (serverId : String) : Nat :=
  (m.clients.filter fun p => p.1 == serverId && p.2.isLive).length +
    (m.orphans.filter fun c => c.serverId == serverId && c.isLive).length

/-! ## Concrete instances used in the scenario theorems below -/

/-- A trivial tool-executor oracle. -/
def dummyExec : ToolUse → ToolResult :=
  fun tc => { tool_name := tc.name, content := "", is_error := false, tool_call_id := none }

/-- A model turn whose finalized content is entirely empty: the stream
produced no content, so the parser finalizes no blocks and the raw
assistant message is empty. -/
def emptyTurn : ModelTurn := { parsedBlocks := [], assistantMessage := "" }

/-- A freshly started Task (loop counter 0) with iteration cap 3. -/
def sampleTask : TaskState :=
  { loopCount := 0, maxLoopCount := 3, isCancelled := false, isCompleted := false,
    history := [], events := [] }

/-- A sample ordinary tool invocation. -/
def sampleRead : ToolUse :=
  { name := "read_file", params := [("path", "a.txt")], isPartial := false, id := none }

/-- A sample `attempt_completion` invocation. -/
def sampleCompletion : ToolUse :=
  { name := "attempt_completion", params := [("result", "done")], isPartial := false, id := none }

/-- A provider definition for the registry scenarios. -/
def sampleConfig : MCPServerConfig :=
  { id := "s1", name := "S1", description := none, command := "cmd", args := none,
    env := none, enabled := true, autoConnect := none }

/-- A registered client for `sampleConfig` that is still `connecting` (its
subprocess is running, the handshake has not finished). -/
def connectingClient : ManagedClient :=
  { inst := 0, serverId := "s1",
    st := { initialClient with status := MCPStatus.connecting, processLive := true } }

/-- A registered client for `sampleConfig` that is `connected`. -/
def connectedClient : ManagedClient :=
  { inst := 0, serverId := "s1",
    st := { initialClient with
            status := MCPStatus.connected
            processLive := true
            tools := ["echo"] } }

/-- Manager state in which `sampleConfig`'s client is mid-connect. -/
def managerConnecting : MCPManagerState :=
  { configs := [sampleConfig], clients := [("s1", connectingClient)], orphans := [],
    nextInst := 1 }

/-- Manager state in which `sampleConfig`'s client is connected. -/
def managerConnected : MCPManagerState :=
  { configs := [sampleConfig], clients := [("s1", connectedClient)], orphans := [],
    nextInst := 1 }

/-- A client state with two pending requests, as left by two sends. -/
def samplePendingClient : MCPClientState :=
  { requestId := 2, pending := [1, 2], buffer := "half a line",
    tools := ["echo"], status := MCPStatus.connected, errorMsg := none,
    processLive := true }

/-! ## Basic lemmas about the Task loop -/

theorem completeTask_loopCount (s : TaskState) :
    s.completeTask.loopCount = s.loopCount := by
  unfold TaskState.completeTask
  split <;> rfl

theorem completeTask_maxLoopCount (s : TaskState) :
    s.completeTask.maxLoopCount = s.maxLoopCount := by
  unfold TaskState.completeTask
  split <;> rfl

theorem streamCount_append (a b : List TaskEvent) :
    streamCount (a ++ b) = streamCount a + streamCount b := by
  simp [streamCount, List.countP_append]

theorem completeTask_streamCount (s : TaskState) :
    streamCount s.completeTask.events = streamCount s.events := by
  unfold TaskState.completeTask
  split
  · rfl
  · rw [streamCount_append]
    rfl

theorem recordToolResults_loopCount (rs : List ToolResult) :
    ∀ s : TaskState, (recordToolResults s rs).loopCount = s.loopCount := by
  induction rs with
  | nil => intro s; rfl
  | cons r rest ih => intro s; rw [recordToolResults]; exact ih _

theorem recordToolResults_maxLoopCount (rs : List ToolResult) :
    ∀ s : TaskState, (recordToolResults s rs).maxLoopCount = s.maxLoopCount := by
  induction rs with
  | nil => intro s; rfl
  | cons r rest ih => intro s; rw [recordToolResults]; exact ih _

theorem recordToolResults_streamCount (rs : List ToolResult) :
    ∀ s : TaskState, streamCount (recordToolResults s rs).events = streamCount s.events := by
  induction rs with
  | nil => intro s; rfl
  | cons r rest ih =>
    intro s
    rw [recordToolResults, ih]
    rw [streamCount_append]
    rfl

theorem executeToolCalls_streamCount (c : Bool) (exec : ToolUse → ToolResult) :
    ∀ tcs : List ToolUse, streamCount (executeToolCalls c exec tcs).1 = 0 := by
  intro tcs
  induction tcs with
  | nil => rfl
  | cons tc rest ih =>
    rcases hrec : executeToolCalls c exec rest with ⟨evs, rs⟩
    rw [executeToolCalls]
    cases c
    · rw [hrec] at ih ⊢
      simpa [streamCount] using ih
    · rfl

theorem processTurn_loopCount (exec : ToolUse → ToolResult) (s : TaskState)
    (t : ModelTurn) : (processTurn exec s t).1.loopCount = s.loopCount := by
  simp only [processTurn]
  split
  · split
    · rfl
    · rw [completeTask_loopCount]
  · split
    · rw [completeTask_loopCount, recordToolResults_loopCount]
    · rw [recordToolResults_loopCount]

theorem processTurn_maxLoopCount (exec : ToolUse → ToolResult) (s : TaskState)
    (t : ModelTurn) : (processTurn exec s t).1.maxLoopCount = s.maxLoopCount := by
  simp only [processTurn]
  split
  · split
    · rfl
    · rw [completeTask_maxLoopCount]
  · split
    · rw [completeTask_maxLoopCount, recordToolResults_maxLoopCount]
    · rw [recordToolResults_maxLoopCount]

theorem processTurn_streamCount (exec : ToolUse → ToolResult) (s : TaskState)
    (t : ModelTurn) :
    streamCount (processTurn exec s t).1.events = streamCount s.events := by
  simp only [processTurn]
  split
  · split
    · rfl
    · rw [completeTask_streamCount]
  · split
    · rw [completeTask_streamCount, recordToolResults_streamCount]
      simp [streamCount_append, executeToolCalls_streamCount]
    · rw [recordToolResults_streamCount]
      simp [streamCount_append, executeToolCalls_streamCount]

/-! ## Claim theorems: Task orchestrator -/

/-- Combined invariants of the ReAct loop runner: the counter never
decreases, the cap is constant, the counter stays within the cap, and the
number of opened model streams equals the counter's increase. -/
theorem recursivelyMakeRequest_invariants (exec : ToolUse → ToolResult) :
    ∀ (turns : List ModelTurn) (s : TaskState),
      s.loopCount ≤ (TaskState.recursivelyMakeRequest exec turns s).loopCount ∧
      (TaskState.recursivelyMakeRequest exec turns s).maxLoopCount = s.maxLoopCount ∧
      (s.loopCount ≤ s.maxLoopCount →
        (TaskState.recursivelyMakeRequest exec turns s).loopCount ≤ s.maxLoopCount) ∧
      streamCount (TaskState.recursivelyMakeRequest exec turns s).events + s.loopCount
        = streamCount s.events + (TaskState.recursivelyMakeRequest exec turns s).loopCount := by
  intro turns
  induction turns with
  | nil =>
    intro s
    rw [TaskState.recursivelyMakeRequest]
    split
    · exact ⟨le_refl _, rfl, fun h => h, rfl⟩
    · split
      · refine ⟨?_, ?_, ?_, ?_⟩
        · rw [completeTask_loopCount]
        · rw [completeTask_maxLoopCount]
        · intro h
          rw [completeTask_loopCount]
          exact h
        · rw [completeTask_loopCount, completeTask_streamCount, streamCount_append]
          rfl
      · exact ⟨le_refl _, rfl, fun h => h, rfl⟩
  | cons t rest ih =>
    intro s
    rw [TaskState.recursivelyMakeRequest]
    split
    · exact ⟨le_refl _, rfl, fun h => h, rfl⟩
    · rename_i hcancel
      split
      · refine ⟨?_, ?_, ?_, ?_⟩
        · rw [completeTask_loopCount]
        · rw [completeTask_maxLoopCount]
        · intro h
          rw [completeTask_loopCount]
          exact h
        · rw [completeTask_loopCount, completeTask_streamCount, streamCount_append]
          rfl
      · rename_i hcont
        have hlt : s.loopCount < s.maxLoopCount := by
          simpa [TaskState.shouldContinueLoop] using hcont
        have hL := processTurn_loopCount exec
          { s with loopCount := s.loopCount + 1,
                   events := s.events ++ [TaskEvent.streamOpened] } t
        have hM := processTurn_maxLoopCount exec
          { s with loopCount := s.loopCount + 1,
                   events := s.events ++ [TaskEvent.streamOpened] } t
        have hS := processTurn_streamCount exec
          { s with loopCount := s.loopCount + 1,
                   events := s.events ++ [TaskEvent.streamOpened] } t
        rcases hp : processTurn exec
            { s with loopCount := s.loopCount + 1,
                     events := s.events ++ [TaskEvent.streamOpened] } t with ⟨s', b⟩
        rw [hp] at hL hM hS
        have hL' : s'.loopCount = s.loopCount + 1 := hL
        have hM' : s'.maxLoopCount = s.maxLoopCount := hM
        have hS' : streamCount s'.events
            = streamCount (s.events ++ [TaskEvent.streamOpened]) := hS
        rw [streamCount_append] at hS'
        have hone : streamCount [TaskEvent.streamOpened] = 1 := rfl
        cases b
        · -- processTurn said: stop
          refine ⟨?_, ?_, ?_, ?_⟩
          · show s.loopCount ≤ s'.loopCount
            omega
          · show s'.maxLoopCount = s.maxLoopCount
            exact hM'
          · intro h
            show s'.loopCount ≤ s.maxLoopCount
            omega
          · show streamCount s'.events + s.loopCount
                = streamCount s.events + s'.loopCount
            omega
        · -- processTurn said: continue the loop
          obtain ⟨ih1, ih2, ih3, ih4⟩ := ih s'
          refine ⟨?_, ?_, ?_, ?_⟩
          · show s.loopCount ≤ (TaskState.recursivelyMakeRequest exec rest s').loopCount
            omega
          · show (TaskState.recursivelyMakeRequest exec rest s').maxLoopCount
                = s.maxLoopCount
            rw [ih2, hM']
          · intro h
            show (TaskState.recursivelyMakeRequest exec rest s').loopCount ≤ s.maxLoopCount
            have h5 := ih3 (by omega)
            omega
          · show streamCount (TaskState.recursivelyMakeRequest exec rest s').events
                  + s.loopCount
                = streamCount s.events
                  + (TaskState.recursivelyMakeRequest exec rest s').loopCount
            omega

/-- C1: for every cap N ≥ 1 and every run of the loop, the counter is
non-decreasing and never exceeds N (which itself never changes), the number
of model streams opened equals the counter's increase (hence at most N from
a fresh task), and once the counter has reached the cap an un-cancelled
run immediately terminates via `completeTask` with the limit-exceeded
notice — a checked, clean termination, not an exception. -/
theorem iteration_cap_enforced (exec : ToolUse → ToolResult) (turns : List ModelTurn)
    (s : TaskState) (hN : 1 ≤ s.maxLoopCount) (h0 : s.loopCount ≤ s.maxLoopCount) :
    s.loopCount ≤ (TaskState.recursivelyMakeRequest exec turns s).loopCount ∧
    (TaskState.recursivelyMakeRequest exec turns s).loopCount ≤ s.maxLoopCount ∧
    (TaskState.recursivelyMakeRequest exec turns s).maxLoopCount = s.maxLoopCount ∧
    streamCount (TaskState.recursivelyMakeRequest exec turns s).events + s.loopCount
      = streamCount s.events + (TaskState.recursivelyMakeRequest exec turns s).loopCount ∧
    (s.isCancelled = false → s.loopCount = s.maxLoopCount →
      TaskState.recursivelyMakeRequest exec turns s =
        TaskState.completeTask
          { s with events := s.events ++ [TaskEvent.errorMsg (limitMessage s.maxLoopCount)] }) := by
  obtain ⟨h1, h2, h3, h4⟩ := recursivelyMakeRequest_invariants exec turns s
  refine ⟨h1, h3 h0, h2, h4, ?_⟩
  intro hcan hmax
  rw [TaskState.recursivelyMakeRequest.eq_def]
  simp [hcan, TaskState.shouldContinueLoop, hmax]

/-- Witness for C1 at a fresh task with cap 3 and an exhausted oracle. -/
theorem iteration_cap_enforced_witness :
    sampleTask.loopCount ≤ (TaskState.recursivelyMakeRequest dummyExec [] sampleTask).loopCount ∧
    (TaskState.recursivelyMakeRequest dummyExec [] sampleTask).loopCount ≤ sampleTask.maxLoopCount ∧
    (TaskState.recursivelyMakeRequest dummyExec [] sampleTask).maxLoopCount = sampleTask.maxLoopCount ∧
    streamCount (TaskState.recursivelyMakeRequest dummyExec [] sampleTask).events + sampleTask.loopCount
      = streamCount sampleTask.events + (TaskState.recursivelyMakeRequest dummyExec [] sampleTask).loopCount ∧
    (sampleTask.isCancelled = false → sampleTask.loopCount = sampleTask.maxLoopCount →
      TaskState.recursivelyMakeRequest dummyExec [] sampleTask =
        TaskState.completeTask
          { sampleTask with
            events := sampleTask.events ++
              [TaskEvent.errorMsg (limitMessage sampleTask.maxLoopCount)] }) :=
  iteration_cap_enforced dummyExec [] sampleTask (by decide) (by decide)

/-- C10: `cancel` is idempotent on a running task: the first call causes
exactly one terminal-state transition (both flags set) and posts exactly
one `task_complete` event; the second call is a no-op, so across both
calls exactly one termination event is emitted. -/
theorem cancel_idempotent (s : TaskState)
    (h1 : s.isCancelled = false) (h2 : s.isCompleted = false) :
    TaskState.cancel (TaskState.cancel s) = TaskState.cancel s ∧
    (TaskState.cancel s).isCancelled = true ∧
    (TaskState.cancel s).isCompleted = true ∧
    (TaskState.cancel s).events = s.events ++ [TaskEvent.taskComplete] ∧
    completeCount (TaskState.cancel (TaskState.cancel s)).events
      = completeCount s.events + 1 := by
  simp [TaskState.cancel, TaskState.completeTask, h1, h2, completeCount,
    List.countP_append]

/-- Witness for C10 at a concrete running task. -/
theorem cancel_idempotent_witness :
    TaskState.cancel (TaskState.cancel sampleTask) = TaskState.cancel sampleTask ∧
    (TaskState.cancel sampleTask).isCancelled = true ∧
    (TaskState.cancel sampleTask).isCompleted = true ∧
    (TaskState.cancel sampleTask).events = sampleTask.events ++ [TaskEvent.taskComplete] ∧
    completeCount (TaskState.cancel (TaskState.cancel sampleTask)).events
      = completeCount sampleTask.events + 1 :=
  cancel_idempotent sampleTask rfl rfl

/-- C2 (code-bug evidence): a model turn whose finalized content is
entirely empty does NOT terminate the Task as Completed —
`buildAssistantContent` wraps the empty message into a text block, the
`hasTextContent` check tests only the block type, so the loop appends the
corrective instruction and opens another model stream.  Two empty turns
under cap 3: two streams opened, two corrective instructions appended, no
completion. -/
theorem empty_turn_prompts_instead_of_completing :
    (TaskState.recursivelyMakeRequest dummyExec [emptyTurn, emptyTurn] sampleTask).isCompleted
        = false ∧
    streamCount
        (TaskState.recursivelyMakeRequest dummyExec [emptyTurn, emptyTurn] sampleTask).events
        = 2 ∧
    (TaskState.recursivelyMakeRequest dummyExec [emptyTurn, emptyTurn] sampleTask).history =
      [HistoryItem.assistant "", HistoryItem.user noToolsUsed,
       HistoryItem.assistant "", HistoryItem.user noToolsUsed] ∧
    completeCount
        (TaskState.recursivelyMakeRequest dummyExec [emptyTurn, emptyTurn] sampleTask).events
        = 0 :=
  ⟨rfl, rfl, rfl, rfl⟩

/-- C9: a model turn emitting exactly two tool calls of which the second is
the completion tool, with cancellation never requested: both tools execute
sequentially in emission order, both results are appended to history in
that order, and the Task transitions to Completed only after the second
tool finished — `task_complete` is the last event, after both
`tool_result` events. -/
theorem completion_after_batch (exec : ToolUse → ToolResult) (t1 t2 : ToolUse)
    (msg : String) (s : TaskState)
    (hcan : s.isCancelled = false) (hcomp : s.isCompleted = false)
    (hloop : s.loopCount < s.maxLoopCount)
    (ht2 : t2.name = "attempt_completion") :
    TaskState.recursivelyMakeRequest exec
        [{ parsedBlocks := [AssistantMessageContent.tool_use t1,
                            AssistantMessageContent.tool_use t2],
           assistantMessage := msg }] s =
      { s with
        loopCount := s.loopCount + 1,
        isCompleted := true,
        history := s.history ++
          [HistoryItem.assistant msg,
           HistoryItem.tool_result (attachToolCallId t1 (exec t1)),
           HistoryItem.tool_result (attachToolCallId t2 (exec t2))],
        events := s.events ++
          [TaskEvent.streamOpened, TaskEvent.toolCall t1, TaskEvent.toolCall t2,
           TaskEvent.toolResult (attachToolCallId t1 (exec t1)),
           TaskEvent.toolResult (attachToolCallId t2 (exec t2)),
           TaskEvent.taskComplete] } := by
  rw [TaskState.recursivelyMakeRequest]
  simp [hcan, hcomp, TaskState.shouldContinueLoop, hloop, processTurn,
    buildAssistantContent, executeToolCalls, recordToolResults,
    TaskState.completeTask, hasAttemptCompletion, ht2]

/-- Witness for C9 at a concrete read + completion batch. -/
theorem completion_after_batch_witness :
    TaskState.recursivelyMakeRequest dummyExec
        [{ parsedBlocks := [AssistantMessageContent.tool_use sampleRead,
                            AssistantMessageContent.tool_use sampleCompletion],
           assistantMessage := "doing it" }] sampleTask =
      { sampleTask with
        loopCount := sampleTask.loopCount + 1,
        isCompleted := true,
        history := sampleTask.history ++
          [HistoryItem.assistant "doing it",
           HistoryItem.tool_result (attachToolCallId sampleRead (dummyExec sampleRead)),
           HistoryItem.tool_result (attachToolCallId sampleCompletion (dummyExec sampleCompletion))],
        events := sampleTask.events ++
          [TaskEvent.streamOpened, TaskEvent.toolCall sampleRead,
           TaskEvent.toolCall sampleCompletion,
           TaskEvent.toolResult (attachToolCallId sampleRead (dummyExec sampleRead)),
           TaskEvent.toolResult (attachToolCallId sampleCompletion (dummyExec sampleCompletion)),
           TaskEvent.taskComplete] } :=
  completion_after_batch dummyExec sampleRead sampleCompletion "doing it" sampleTask
    rfl rfl (by decide) rfl

/-! ## Claim theorems: MCP protocol client -/

/-- C8: after `disconnect` returns, every request that was pending has been
rejected with the disconnection error, the pending set is empty, the tool
catalog is empty, the buffered partial input is cleared, the process is
gone and the published status is `disconnected`. -/
theorem disconnect_clears (s : MCPClientState) :
    s.disconnect.1.pending = [] ∧
    s.disconnect.1.tools = [] ∧
    s.disconnect.1.buffer = "" ∧
    s.disconnect.1.status = MCPStatus.disconnected ∧
    s.disconnect.1.processLive = false ∧
    s.disconnect.2 =
      (s.pending.map fun id => ClientEvent.rejected id RejectReason.disconnected) ++
        [ClientEvent.publish MCPStatus.disconnected [] none] ∧
    ∀ id ∈ s.pending,
      ClientEvent.rejected id RejectReason.disconnected ∈ s.disconnect.2 := by
  refine ⟨rfl, rfl, rfl, rfl, rfl, rfl, ?_⟩
  intro id hid
  simp only [MCPClientState.disconnect, setStatus, List.mem_append, List.mem_map]
  exact Or.inl ⟨id, hid, rfl⟩

/-- Witness for C8 at a client with two pending requests. -/
theorem disconnect_clears_witness :
    samplePendingClient.disconnect.1.pending = [] ∧
    samplePendingClient.disconnect.1.tools = [] ∧
    samplePendingClient.disconnect.1.buffer = "" ∧
    samplePendingClient.disconnect.1.status = MCPStatus.disconnected ∧
    samplePendingClient.disconnect.1.processLive = false ∧
    samplePendingClient.disconnect.2 =
      (samplePendingClient.pending.map fun id =>
          ClientEvent.rejected id RejectReason.disconnected) ++
        [ClientEvent.publish MCPStatus.disconnected [] none] ∧
    ∀ id ∈ samplePendingClient.pending,
      ClientEvent.rejected id RejectReason.disconnected ∈ samplePendingClient.disconnect.2 :=
  disconnect_clears samplePendingClient

/-- C4 counterexample: a `connect` whose subprocess exits (code 1) inside
the grace window publishes the status sequence
`connecting, disconnected, error, disconnected` — containing the
transitions `connecting→disconnected` and `disconnected→error` that the
specified machine `disconnected→connecting→{connected,error}→disconnected`
forbids. -/
theorem connect_early_exit_breaks_spec_transitions :
    publishedStatuses (initialClient.connect (ConnectOutcome.earlyExit 1 "boom")).2.1 =
      [MCPStatus.connecting, MCPStatus.disconnected, MCPStatus.error,
       MCPStatus.disconnected] ∧
    chainOK specAllowed
      (initialClient.status ::
        publishedStatuses (initialClient.connect (ConnectOutcome.earlyExit 1 "boom")).2.1)
      = false ∧
    specAllowed MCPStatus.connecting MCPStatus.disconnected = false ∧
    specAllowed MCPStatus.disconnected MCPStatus.error = false :=
  ⟨rfl, rfl, rfl, rfl⟩

/-! ### The amended status-transition invariant (C4) -/

theorem publishedStatuses_append (a b : List ClientEvent) :
    publishedStatuses (a ++ b) = publishedStatuses a ++ publishedStatuses b := by
  induction a with
  | nil => rfl
  | cons e rest ih => cases e <;> simp [publishedStatuses, ih]

theorem publishedStatuses_rejections (l : List Nat) (rr : RejectReason) :
    publishedStatuses (l.map fun id => ClientEvent.rejected id rr) = [] := by
  induction l with
  | nil => rfl
  | cons a l ih => simpa [publishedStatuses] using ih

theorem lastStatus_nil (d : MCPStatus) : lastStatus [] d = d := rfl

theorem lastStatus_cons (a : MCPStatus) (l : List MCPStatus) (d : MCPStatus) :
    lastStatus (a :: l) d = lastStatus l a := rfl

theorem chainOK_append (r : MCPStatus → MCPStatus → Bool) :
    ∀ (x : MCPStatus) (l1 l2 : List MCPStatus),
      chainOK r (x :: l1) = true → chainOK r (lastStatus l1 x :: l2) = true →
      chainOK r (x :: l1 ++ l2) = true := by
  intro x l1
  induction l1 generalizing x with
  | nil =>
    intro l2 h1 h2
    simpa [lastStatus] using h2
  | cons a l1 ih =>
    intro l2 h1 h2
    have h1' : ((x == a || r x a) && chainOK r (a :: l1)) = true := h1
    rcases Bool.and_eq_true_iff.mp h1' with ⟨hxa, h1''⟩
    show ((x == a || r x a) && chainOK r (a :: (l1 ++ l2))) = true
    rw [hxa]
    simpa using ih a l2 h1'' (by simpa [lastStatus_cons] using h2)

theorem stepOp_chain (s : MCPClientState) (op : ClientOp) :
    chainOK amendedAllowed (s.status :: publishedStatuses (stepOp s op).2) = true ∧
    (stepOp s op).1.status = lastStatus (publishedStatuses (stepOp s op).2) s.status := by
  rcases s with ⟨rid, pend, buf, tools, st, err, live⟩
  cases op with
  | connect o =>
    cases o with
    | earlyExit code stderr =>
      cases st <;>
        simp [stepOp, MCPClientState.connect, setStatus, processExit, handleDisconnect,
          MCPClientState.disconnect, publishedStatuses, publishedStatuses_append,
          publishedStatuses_rejections, chainOK, amendedAllowed, specAllowed,
          lastStatus]
    | spawnError msg =>
      cases st <;>
        simp [stepOp, MCPClientState.connect, setStatus, processExit, handleDisconnect,
          MCPClientState.disconnect, publishedStatuses, publishedStatuses_append,
          publishedStatuses_rejections, chainOK, amendedAllowed, specAllowed,
          lastStatus]
    | handshakeFail initSucceeded reason =>
      cases initSucceeded <;> cases st <;>
        simp [stepOp, MCPClientState.connect, setStatus, processExit, handleDisconnect,
          MCPClientState.disconnect, publishedStatuses, publishedStatuses_append,
          publishedStatuses_rejections, chainOK, amendedAllowed, specAllowed,
          lastStatus]
    | ok tls =>
      cases st <;>
        simp [stepOp, MCPClientState.connect, setStatus, processExit, handleDisconnect,
          MCPClientState.disconnect, publishedStatuses, publishedStatuses_append,
          publishedStatuses_rejections, chainOK, amendedAllowed, specAllowed,
          lastStatus]
  | disconnect =>
    cases st <;>
      simp [stepOp, MCPClientState.disconnect, setStatus, publishedStatuses,
        publishedStatuses_append, publishedStatuses_rejections, chainOK,
        amendedAllowed, specAllowed, lastStatus]
  | processExit =>
    cases st <;>
      simp [stepOp, processExit, handleDisconnect, MCPClientState.disconnect, setStatus,
        publishedStatuses, publishedStatuses_append, publishedStatuses_rejections,
        chainOK, amendedAllowed, specAllowed, lastStatus]
  | message m =>
    cases m with
    | response id isErr msg =>
      cases isErr <;> by_cases h : id ∈ pend <;>
        simp [stepOp, MCPClientState.handleMessage, h, publishedStatuses, chainOK,
          lastStatus]
    | notif mth =>
      simp [stepOp, MCPClientState.handleMessage, publishedStatuses, chainOK,
        lastStatus]
  | timerFire id =>
    by_cases h : id ∈ pend <;>
      simp [stepOp, timerFire, h, publishedStatuses, chainOK, lastStatus]
  | send =>
    cases live <;>
      simp [stepOp, MCPClientState.sendRequest, publishedStatuses, chainOK, lastStatus]

/-- C4 (amended): across every sequence of client operations, the published
status only ever changes along the specified machine
`disconnected→connecting→{connected,error}→disconnected` (with `error`
re-entering `connecting`), EXTENDED by the two arrows the early-exit
failure path of `connect` actually exercises: `connecting→disconnected`
(the exit handler's cleanup publishes `disconnected` before the failure is
surfaced) and `disconnected→error` (the grace-window check then publishes
`error`). -/
theorem mcp_status_transitions (s : MCPClientState) (ops : List ClientOp) :
    chainOK amendedAllowed (s.status :: publishedStatuses (runOps s ops).2) = true := by
  induction ops generalizing s with
  | nil => simp [runOps, publishedStatuses, chainOK]
  | cons op rest ih =>
    obtain ⟨h1, h2⟩ := stepOp_chain s op
    rcases hstep : stepOp s op with ⟨s1, evs1⟩
    rw [hstep] at h1 h2
    rcases hrun : runOps s1 rest with ⟨s2, evs2⟩
    have hih := ih s1
    rw [hrun] at hih
    have h1' : chainOK amendedAllowed (s.status :: publishedStatuses evs1) = true := h1
    have h2' : s1.status = lastStatus (publishedStatuses evs1) s.status := h2
    have hih' : chainOK amendedAllowed (s1.status :: publishedStatuses evs2) = true := hih
    rw [runOps]
    simp only [hstep, hrun, publishedStatuses_append]
    exact chainOK_append amendedAllowed s.status _ _ h1' (by rw [← h2']; exact hih')

/-! ### Request-id uniqueness and monotonicity (C6) -/

theorem issuedIds_append (a b : List ClientEvent) :
    issuedIds (a ++ b) = issuedIds a ++ issuedIds b := by
  induction a with
  | nil => rfl
  | cons e rest ih => cases e <;> simp [issuedIds, ih]

theorem issuedIds_rejections (l : List Nat) (rr : RejectReason) :
    issuedIds (l.map fun id => ClientEvent.rejected id rr) = [] := by
  induction l with
  | nil => rfl
  | cons a l ih => simpa [issuedIds] using ih

theorem stepOp_issued (s : MCPClientState) (op : ClientOp) :
    s.requestId ≤ (stepOp s op).1.requestId ∧
    List.Chain' (· < ·) (issuedIds (stepOp s op).2) ∧
    ∀ i ∈ issuedIds (stepOp s op).2,
      s.requestId < i ∧ i ≤ (stepOp s op).1.requestId := by
  rcases s with ⟨rid, pend, buf, tools, st, err, live⟩
  cases op with
  | connect o =>
    cases o with
    | earlyExit code stderr =>
      cases st <;>
        simp [stepOp, MCPClientState.connect, setStatus, processExit, handleDisconnect,
          MCPClientState.disconnect, issuedIds, issuedIds_append, issuedIds_rejections]
    | spawnError msg =>
      cases st <;>
        simp [stepOp, MCPClientState.connect, setStatus, processExit, handleDisconnect,
          MCPClientState.disconnect, issuedIds, issuedIds_append, issuedIds_rejections]
    | handshakeFail initSucceeded reason =>
      cases initSucceeded <;> cases st <;>
        simp [stepOp, MCPClientState.connect, setStatus, processExit, handleDisconnect,
          MCPClientState.disconnect, issuedIds, issuedIds_append, issuedIds_rejections,
          List.chain'_cons, List.chain'_singleton] <;> omega
    | ok tls =>
      cases st <;>
        simp [stepOp, MCPClientState.connect, setStatus, issuedIds,
          List.chain'_cons, List.chain'_singleton] <;> omega
  | disconnect =>
    simp [stepOp, MCPClientState.disconnect, setStatus, issuedIds, issuedIds_append,
      issuedIds_rejections]
  | processExit =>
    cases st <;>
      simp [stepOp, processExit, handleDisconnect, MCPClientState.disconnect, setStatus,
        issuedIds, issuedIds_append, issuedIds_rejections]
  | message m =>
    cases m with
    | response id isErr msg =>
      cases isErr <;> by_cases h : id ∈ pend <;>
        simp [stepOp, MCPClientState.handleMessage, h, issuedIds]
    | notif mth =>
      simp [stepOp, MCPClientState.handleMessage, issuedIds]
  | timerFire id =>
    by_cases h : id ∈ pend <;>
      simp [stepOp, timerFire, h, issuedIds]
  | send =>
    cases live <;>
      simp [stepOp, MCPClientState.sendRequest, issuedIds, List.chain'_singleton]

theorem runOps_issued (ops : List ClientOp) :
    ∀ s : MCPClientState,
      s.requestId ≤ (runOps s ops).1.requestId ∧
      List.Chain' (· < ·) (issuedIds (runOps s ops).2) ∧
      ∀ i ∈ issuedIds (runOps s ops).2,
        s.requestId < i ∧ i ≤ (runOps s ops).1.requestId := by
  induction ops with
  | nil =>
    intro s
    simp [runOps, issuedIds]
  | cons op rest ih =>
    intro s
    obtain ⟨hmono1, hchain1, hbound1⟩ := stepOp_issued s op
    rcases hstep : stepOp s op with ⟨s1, evs1⟩
    rw [hstep] at hmono1 hchain1 hbound1
    obtain ⟨hmono2, hchain2, hbound2⟩ := ih s1
    rcases hrun : runOps s1 rest with ⟨s2, evs2⟩
    rw [hrun] at hmono2 hchain2 hbound2
    have hmono1' : s.requestId ≤ s1.requestId := hmono1
    have hchain1' : List.Chain' (· < ·) (issuedIds evs1) := hchain1
    have hbound1' : ∀ i ∈ issuedIds evs1, s.requestId < i ∧ i ≤ s1.requestId := hbound1
    have hmono2' : s1.requestId ≤ s2.requestId := hmono2
    have hchain2' : List.Chain' (· < ·) (issuedIds evs2) := hchain2
    have hbound2' : ∀ i ∈ issuedIds evs2, s1.requestId < i ∧ i ≤ s2.requestId := hbound2
    rw [runOps]
    simp only [hstep, hrun, issuedIds_append]
    refine ⟨le_trans hmono1' hmono2', ?_, ?_⟩
    · refine List.Chain'.append hchain1' hchain2' ?_
      intro x hx y hy
      have hx' := hbound1' x (List.mem_of_mem_getLast? hx)
      have hy' := hbound2' y (List.mem_of_mem_head? hy)
      omega
    · intro i hi
      rcases List.mem_append.mp hi with h | h
      · have := hbound1' i h
        omega
      · have := hbound2' i h
        omega

/-- C6: within one client's lifetime, the issued request ids are strictly
increasing (hence unique), and a response line whose id matches no pending
request leaves the client state unchanged and produces no event. -/
theorem request_ids_unique_increasing (s : MCPClientState) (ops : List ClientOp) :
    List.Chain' (· < ·) (issuedIds (runOps s ops).2) ∧
    (issuedIds (runOps s ops).2).Nodup ∧
    ∀ (id : Nat) (isErr : Bool) (msg : String), id ∉ s.pending →
      s.handleMessage (RPCMessage.response id isErr msg) = (s, []) := by
  obtain ⟨-, hchain, -⟩ := runOps_issued ops s
  refine ⟨hchain, ((List.chain'_iff_pairwise).mp hchain).imp Nat.ne_of_lt, ?_⟩
  intro id isErr msg hid
  simp [MCPClientState.handleMessage, hid]

/-- Witness for C6: two sends issue ids 3 then 4; a response with the
unknown id 7 is ignored. -/
theorem request_ids_unique_increasing_witness :
    List.Chain' (· < ·)
      (issuedIds (runOps samplePendingClient [ClientOp.send, ClientOp.send]).2) ∧
    (issuedIds (runOps samplePendingClient [ClientOp.send, ClientOp.send]).2).Nodup ∧
    samplePendingClient.handleMessage (RPCMessage.response 7 false "late")
      = (samplePendingClient, []) := by
  obtain ⟨h1, h2, h3⟩ :=
    request_ids_unique_increasing samplePendingClient [ClientOp.send, ClientOp.send]
  exact ⟨h1, h2, h3 7 false "late" (by decide)⟩

/-! ### At-most-once settlement of pending requests (C7) -/

theorem settleCount_append (id : Nat) (a b : List ClientEvent) :
    settleCount id (a ++ b) = settleCount id a + settleCount id b := by
  induction a with
  | nil => simp [settleCount]
  | cons e rest ih => cases e <;> simp [settleCount, ih] <;> omega

theorem settleCount_rejections (id : Nat) (l : List Nat) (rr : RejectReason) :
    settleCount id (l.map fun i => ClientEvent.rejected i rr) = l.count id := by
  induction l with
  | nil => rfl
  | cons a l ih =>
    by_cases ha : a = id <;> simp [settleCount, ih, List.count_cons, ha] <;> omega

theorem settlePotential_le_one (id : Nat) (s : MCPClientState) (h : GoodClient s) :
    settlePotential id s ≤ 1 := by
  obtain ⟨hnd, hbd⟩ := h
  by_cases hm : id ∈ s.pending
  · have hb := hbd id hm
    have hnl : ¬ s.requestId < id := by omega
    simp [settlePotential, pendingBit, futureBit, hm, hnl]
  · simp only [settlePotential, pendingBit, futureBit, if_neg hm]
    split_ifs <;> omega

theorem stepOp_good (s : MCPClientState) (op : ClientOp) (h : GoodClient s) :
    GoodClient (stepOp s op).1 := by
  rcases s with ⟨rid, pend, buf, tools, st, err, live⟩
  obtain ⟨hnd, hbd⟩ := h
  have hnd' : pend.Nodup := hnd
  have hbd' : ∀ i ∈ pend, i ≤ rid := hbd
  cases op with
  | connect o =>
    cases o with
    | earlyExit code stderr =>
      cases st <;> first
        | exact ⟨hnd', hbd'⟩
        | exact ⟨List.nodup_nil, fun i hi => absurd hi (List.not_mem_nil i)⟩
    | spawnError msg =>
      cases st <;> first
        | exact ⟨hnd', hbd'⟩
        | exact ⟨List.nodup_nil, fun i hi => absurd hi (List.not_mem_nil i)⟩
    | handshakeFail initSucceeded reason =>
      cases st <;> first
        | exact ⟨hnd', hbd'⟩
        | exact ⟨List.nodup_nil, fun i hi => absurd hi (List.not_mem_nil i)⟩
    | ok tls =>
      cases st <;> first
        | exact ⟨hnd', hbd'⟩
        | exact ⟨hnd', fun i hi => le_trans (hbd' i hi) (Nat.le_add_right rid 2)⟩
  | disconnect =>
    exact ⟨List.nodup_nil, fun i hi => absurd hi (List.not_mem_nil i)⟩
  | processExit =>
    cases st <;> first
      | exact ⟨hnd', hbd'⟩
      | exact ⟨List.nodup_nil, fun i hi => absurd hi (List.not_mem_nil i)⟩
  | message m =>
    cases m with
    | response id isErr msg =>
      simp only [stepOp, MCPClientState.handleMessage]
      split
      · split <;>
          exact ⟨List.Nodup.erase _ hnd', fun i hi => hbd' i (List.mem_of_mem_erase hi)⟩
      · exact ⟨hnd', hbd'⟩
    | notif mth => exact ⟨hnd', hbd'⟩
  | timerFire id =>
    simp only [stepOp, timerFire]
    split
    · exact ⟨List.Nodup.erase _ hnd', fun i hi => hbd' i (List.mem_of_mem_erase hi)⟩
    · exact ⟨hnd', hbd'⟩
  | send =>
    cases live
    · exact ⟨hnd', hbd'⟩
    · show (pend ++ [rid + 1]).Nodup ∧ ∀ i ∈ pend ++ [rid + 1], i ≤ rid + 1
      have hout : rid + 1 ∉ pend := fun hmem => by have := hbd' _ hmem; omega
      refine ⟨?_, ?_⟩
      · simp [List.nodup_append, hnd', hout]
      · intro i hi
        rcases List.mem_append.mp hi with hh | hh
        · have := hbd' i hh
          omega
        · simp only [List.mem_singleton] at hh
          omega

theorem stepOp_settles (s : MCPClientState) (op : ClientOp) (id : Nat)
    (h : GoodClient s) :
    settleCount id (stepOp s op).2 + settlePotential id (stepOp s op).1
      ≤ settlePotential id s := by
  rcases s with ⟨rid, pend, buf, tools, st, err, live⟩
  obtain ⟨hnd, hbd⟩ := h
  have hnd' : pend.Nodup := hnd
  have hbd' : ∀ i ∈ pend, i ≤ rid := hbd
  clear hnd hbd
  by_cases hm : id ∈ pend
  · have hc : pend.count id = 1 := List.count_eq_one_of_mem hnd' hm
    have hb : id ≤ rid := hbd' id hm
    cases op with
    | connect o =>
      cases o with
      | earlyExit code stderr =>
        cases st <;>
          simp [stepOp, MCPClientState.connect, setStatus, processExit,
            handleDisconnect, MCPClientState.disconnect, settleCount,
            settleCount_append, settleCount_rejections, hc, settlePotential,
            pendingBit, futureBit, hm] <;> try omega
      | spawnError msg =>
        cases st <;>
          simp [stepOp, MCPClientState.connect, setStatus, processExit,
            handleDisconnect, MCPClientState.disconnect, settleCount,
            settleCount_append, settleCount_rejections, hc, settlePotential,
            pendingBit, futureBit, hm] <;> try omega
      | handshakeFail initSucceeded reason =>
        cases initSucceeded <;> cases st <;>
          simp [stepOp, MCPClientState.connect, setStatus, processExit,
            handleDisconnect, MCPClientState.disconnect, settleCount,
            settleCount_append, settleCount_rejections, hc, settlePotential,
            pendingBit, futureBit, hm] <;> split_ifs <;> try omega
      | ok tls =>
        cases st <;>
          simp [stepOp, MCPClientState.connect, setStatus, settleCount,
            settlePotential, pendingBit, futureBit, hm] <;> split_ifs <;> try omega
    | disconnect =>
      simp [stepOp, MCPClientState.disconnect, setStatus, settleCount,
        settleCount_append, settleCount_rejections, hc, settlePotential, pendingBit,
        futureBit, hm] <;> try omega
    | processExit =>
      cases st <;>
        simp [stepOp, processExit, handleDisconnect, MCPClientState.disconnect,
          setStatus, settleCount, settleCount_append, settleCount_rejections, hc,
          settlePotential, pendingBit, futureBit, hm] <;> try omega
    | message m =>
      cases m with
      | response idr isErr msg =>
        by_cases hmr : idr ∈ pend
        · by_cases hid : idr = id
          · subst hid
            have hne : idr ∉ pend.erase idr := by
              rw [List.Nodup.mem_erase_iff hnd']
              simp
            have hnl : ¬ rid < idr := by
              have := hbd' idr hmr
              omega
            cases isErr <;>
              simp [stepOp, MCPClientState.handleMessage, hmr, settleCount,
                settlePotential, pendingBit, futureBit, hne, hnl, hm] <;> try omega
          · have hiff : id ∈ pend.erase idr ↔ id ∈ pend := by
              rw [List.Nodup.mem_erase_iff hnd']
              exact ⟨fun hq => hq.2, fun hq => ⟨fun he => hid he.symm, hq⟩⟩
            have hid' : ¬ idr = id := hid
            cases isErr <;>
              simp [stepOp, MCPClientState.handleMessage, hmr, settleCount,
                settlePotential, pendingBit, futureBit, hiff, hid', hm] <;> try omega
        · cases isErr <;>
            simp [stepOp, MCPClientState.handleMessage, hmr, settleCount] <;> try omega
      | notif mth =>
        simp [stepOp, MCPClientState.handleMessage, settleCount]
    | timerFire idr =>
      by_cases hmr : idr ∈ pend
      · by_cases hid : idr = id
        · subst hid
          have hne : idr ∉ pend.erase idr := by
            rw [List.Nodup.mem_erase_iff hnd']
            simp
          have hnl : ¬ rid < idr := by
            have := hbd' idr hmr
            omega
          simp [stepOp, timerFire, hmr, settleCount, settlePotential, pendingBit,
            futureBit, hne, hnl, hm] <;> try omega
        · have hiff : id ∈ pend.erase idr ↔ id ∈ pend := by
            rw [List.Nodup.mem_erase_iff hnd']
            exact ⟨fun hq => hq.2, fun hq => ⟨fun he => hid he.symm, hq⟩⟩
          have hid' : ¬ idr = id := hid
          simp [stepOp, timerFire, hmr, settleCount, settlePotential, pendingBit,
            futureBit, hiff, hid', hm] <;> try omega
      · simp [stepOp, timerFire, hmr, settleCount] <;> try omega
    | send =>
      cases live
      · simp [stepOp, MCPClientState.sendRequest, settleCount]
      · have hnl : ¬ rid < id := by omega
        have hne : ¬ id = rid + 1 := by omega
        simp [stepOp, MCPClientState.sendRequest, settleCount, settlePotential,
          pendingBit, futureBit, hm, hnl, hne] <;> try omega
  · have hc : pend.count id = 0 := List.count_eq_zero_of_not_mem hm
    cases op with
    | connect o =>
      cases o with
      | earlyExit code stderr =>
        cases st <;>
          simp [stepOp, MCPClientState.connect, setStatus, processExit,
            handleDisconnect, MCPClientState.disconnect, settleCount,
            settleCount_append, settleCount_rejections, hc, settlePotential,
            pendingBit, futureBit, hm] <;> split_ifs <;> try omega
      | spawnError msg =>
        cases st <;>
          simp [stepOp, MCPClientState.connect, setStatus, processExit,
            handleDisconnect, MCPClientState.disconnect, settleCount,
            settleCount_append, settleCount_rejections, hc, settlePotential,
            pendingBit, futureBit, hm] <;> split_ifs <;> try omega
      | handshakeFail initSucceeded reason =>
        cases initSucceeded <;> cases st <;>
          simp [stepOp, MCPClientState.connect, setStatus, processExit,
            handleDisconnect, MCPClientState.disconnect, settleCount,
            settleCount_append, settleCount_rejections, hc, settlePotential,
            pendingBit, futureBit, hm] <;> split_ifs <;> try omega
      | ok tls =>
        cases st <;>
          simp [stepOp, MCPClientState.connect, setStatus, settleCount,
            settlePotential, pendingBit, futureBit, hm] <;> split_ifs <;> try omega
    | disconnect =>
      simp [stepOp, MCPClientState.disconnect, setStatus, settleCount,
        settleCount_append, settleCount_rejections, hc, settlePotential, pendingBit,
        futureBit, hm] <;> split_ifs <;> try omega
    | processExit =>
      cases st <;>
        simp [stepOp, processExit, handleDisconnect, MCPClientState.disconnect,
          setStatus, settleCount, settleCount_append, settleCount_rejections, hc,
          settlePotential, pendingBit, futureBit, hm] <;> split_ifs <;> try omega
    | message m =>
      cases m with
      | response idr isErr msg =>
        by_cases hmr : idr ∈ pend
        · have hid : ¬ idr = id := fun hq => hm (hq ▸ hmr)
          have hiff : id ∈ pend.erase idr ↔ id ∈ pend := by
            rw [List.Nodup.mem_erase_iff hnd']
            exact ⟨fun hq => hq.2, fun hq => ⟨fun he => hid he.symm, hq⟩⟩
          cases isErr <;>
            simp [stepOp, MCPClientState.handleMessage, hmr, settleCount,
              settlePotential, pendingBit, futureBit, hiff, hid, hm] <;> try omega
        · cases isErr <;>
            simp [stepOp, MCPClientState.handleMessage, hmr, settleCount] <;> try omega
      | notif mth =>
        simp [stepOp, MCPClientState.handleMessage, settleCount]
    | timerFire idr =>
      by_cases hmr : idr ∈ pend
      · have hid : ¬ idr = id := fun hq => hm (hq ▸ hmr)
        have hiff : id ∈ pend.erase idr ↔ id ∈ pend := by
          rw [List.Nodup.mem_erase_iff hnd']
          exact ⟨fun hq => hq.2, fun hq => ⟨fun he => hid he.symm, hq⟩⟩
        simp [stepOp, timerFire, hmr, settleCount, settlePotential, pendingBit,
          futureBit, hiff, hid, hm] <;> try omega
      · simp [stepOp, timerFire, hmr, settleCount] <;> try omega
    | send =>
      cases live
      · simp [stepOp, MCPClientState.sendRequest, settleCount]
      · simp [stepOp, MCPClientState.sendRequest, settleCount, settlePotential,
          pendingBit, futureBit, hm] <;> split_ifs <;> try omega


theorem runOps_settles (ops : List ClientOp) :
    ∀ (s : MCPClientState) (id : Nat), GoodClient s →
      settleCount id (runOps s ops).2 + settlePotential id (runOps s ops).1
        ≤ settlePotential id s := by
  induction ops with
  | nil =>
    intro s id h
    simp [runOps, settleCount]
  | cons op rest ih =>
    intro s id h
    have h1 := stepOp_settles s op id h
    have hg := stepOp_good s op h
    rcases hstep : stepOp s op with ⟨s1, evs1⟩
    rw [hstep] at h1 hg
    have h2 := ih s1 id hg
    rcases hrun : runOps s1 rest with ⟨s2, evs2⟩
    rw [hrun] at h2
    have h1' : settleCount id evs1 + settlePotential id s1 ≤ settlePotential id s := h1
    have h2' : settleCount id evs2 + settlePotential id s2 ≤ settlePotential id s1 := h2
    rw [runOps]
    simp only [hstep, hrun, settleCount_append]
    omega

/-- C7: every request is settled at most once across any operation
sequence; a pending request's timeout rejects it exactly once and removes
its entry; a response for an id with no pending entry is ignored (no
double-resolution). -/
theorem pending_settled_at_most_once (s : MCPClientState) (ops : List ClientOp)
    (id : Nat) (h : GoodClient s) :
    settleCount id (runOps s ops).2 ≤ 1 ∧
    (id ∈ s.pending →
      timerFire s id = ({ s with pending := s.pending.erase id },
        [ClientEvent.rejected id RejectReason.timeout])) ∧
    (id ∉ s.pending → ∀ (isErr : Bool) (msg : String),
      s.handleMessage (RPCMessage.response id isErr msg) = (s, [])) := by
  refine ⟨?_, ?_, ?_⟩
  · have h1 := runOps_settles ops s id h
    have h2 := settlePotential_le_one id s h
    omega
  · intro hmem
    simp [timerFire, hmem]
  · intro hmem isErr msg
    simp [MCPClientState.handleMessage, hmem]

/-- Witness for C7: on a client with pending ids 1 and 2, firing the
timeout of 1 and then delivering a late response for 1 settles it exactly
once; the timeout removed the entry; a response for the never-issued id 7
is ignored. -/
theorem pending_settled_at_most_once_witness :
    settleCount 1 (runOps samplePendingClient
      [ClientOp.timerFire 1, ClientOp.message (RPCMessage.response 1 false "r")]).2 ≤ 1 ∧
    timerFire samplePendingClient 1 = ({ samplePendingClient with pending := [2] },
      [ClientEvent.rejected 1 RejectReason.timeout]) ∧
    samplePendingClient.handleMessage (RPCMessage.response 7 true "boom")
      = (samplePendingClient, []) := by
  obtain ⟨h1, h2, -⟩ := pending_settled_at_most_once samplePendingClient
    [ClientOp.timerFire 1, ClientOp.message (RPCMessage.response 1 false "r")] 1
    (by constructor <;> decide)
  obtain ⟨-, -, h3⟩ := pending_settled_at_most_once samplePendingClient
    [ClientOp.timerFire 1, ClientOp.message (RPCMessage.response 1 false "r")] 7
    (by constructor <;> decide)
  exact ⟨h1, h2 (by decide), h3 (by decide) true "boom"⟩

/-! ## Claim theorems: MCP manager / registry -/

theorem find?_map_replace (serverId : String) (c : ManagedClient) :
    ∀ clients : List (String × ManagedClient),
      clients.any (fun p => p.1 == serverId) = true →
      (clients.map fun p => if p.1 == serverId then (serverId, c) else p).find?
          (fun p => p.1 == serverId) = some (serverId, c) := by
  intro clients
  induction clients with
  | nil =>
    intro h
    simp at h
  | cons p rest ih =>
    intro h
    rw [List.map_cons]
    by_cases hp : (p.1 == serverId) = true
    · rw [if_pos hp]
      apply List.find?_cons_of_pos
      simp
    · have h' : rest.any (fun q => q.1 == serverId) = true := by
        rcases List.any_eq_true.mp h with ⟨x, hx, hpx⟩
        rcases List.mem_cons.mp hx with rfl | hx'
        · exact absurd hpx hp
        · exact List.any_eq_true.mpr ⟨x, hx', hpx⟩
      rw [if_neg hp, List.find?_cons_of_neg]
      · exact ih h'
      · exact hp

theorem find?_setClient (clients : List (String × ManagedClient)) (serverId : String)
    (c : ManagedClient) (h : clients.any (fun p => p.1 == serverId) = true) :
    (setClient clients serverId c).find? (fun p => p.1 == serverId)
      = some (serverId, c) := by
  unfold setClient
  rw [if_pos h]
  exact find?_map_replace serverId c clients h

/-- C5 counterexample: with the registered client for `s1` still
`connecting` (one live subprocess), a second `connectServer` call creates a
fresh client and connects it, leaving TWO live client instances for the id
— the claim's "no second live client, exactly one live client" is false. -/
theorem connectServer_second_live_client :
    liveClientCount managerConnecting "s1" = 1 ∧
    (resultState (connectServer managerConnecting "s1" (ConnectOutcome.ok ["echo"]))).map
        (fun m => liveClientCount m "s1") = some 2 := by
  exact ⟨rfl, rfl⟩

/-- C5 (amended): `connectServer` is idempotent only when the registered
client's status is `connected` (no new client, no state change); when the
registered client is still `connecting`, the call builds a fresh client,
overwrites the map entry with it, and leaves the previous client live but
untracked — a second live client for the same provider id. -/
theorem connectServer_idempotence (m : MCPManagerState) (serverId : String)
    (o : ConnectOutcome) (cfg : MCPServerConfig) (c : ManagedClient)
    (hcfg : m.configs.find? (fun x => x.id == serverId) = some cfg)
    (hen : cfg.enabled = true)
    (hc : lookupClient m serverId = some c) :
    (c.st.status = MCPStatus.connected →
      connectServer m serverId o = ConnectServerResult.ok m []) ∧
    (c.st.status = MCPStatus.connecting →
      ∃ m', resultState (connectServer m serverId o) = some m' ∧
        c ∈ m'.orphans ∧
        lookupClient m' serverId =
          some { inst := m.nextInst, serverId := serverId,
                 st := (initialClient.connect o).1 }) := by
  have hany : m.clients.any (fun p => p.1 == serverId) = true := by
    rcases hfind : m.clients.find? (fun p => p.1 == serverId) with _ | pr
    · rw [lookupClient, hfind] at hc
      simp at hc
    · have hmem := List.mem_of_find?_eq_some hfind
      have hp0 := List.find?_some hfind
      exact List.any_eq_true.mpr ⟨pr, hmem, hp0⟩
  constructor
  · intro hst
    unfold connectServer
    rw [hcfg]
    simp [hen, hc, hst]
  · intro hst
    have hred : connectServer m serverId o = connectFresh m serverId o (some c) := by
      unfold connectServer
      rw [hcfg]
      simp [hen, hc, hst]
    rw [hred]
    unfold connectFresh
    rcases hcon : initialClient.connect o with ⟨cst, evs, threw⟩
    refine ⟨{ m with
        clients := setClient m.clients serverId
          { inst := m.nextInst, serverId := serverId, st := cst },
        orphans := m.orphans ++ [c],
        nextInst := m.nextInst + 1 }, ?_, ?_, ?_⟩
    · cases threw <;> simp [resultState]
    · simp
    · simp [lookupClient, find?_setClient _ _ _ hany]

/-- Witness for C5 (amended), at the manager whose registered client is
still connecting and at the one whose client is connected. -/
theorem connectServer_idempotence_witness :
    connectServer managerConnected "s1" (ConnectOutcome.ok ["echo"])
      = ConnectServerResult.ok managerConnected [] ∧
    ∃ m', resultState (connectServer managerConnecting "s1" (ConnectOutcome.ok ["echo"]))
        = some m' ∧
      connectingClient ∈ m'.orphans ∧
      lookupClient m' "s1" =
        some { inst := managerConnecting.nextInst, serverId := "s1",
               st := (initialClient.connect (ConnectOutcome.ok ["echo"])).1 } := by
  obtain ⟨hconn, -⟩ := connectServer_idempotence managerConnected "s1"
    (ConnectOutcome.ok ["echo"]) sampleConfig connectedClient rfl rfl rfl
  obtain ⟨-, hing⟩ := connectServer_idempotence managerConnecting "s1"
    (ConnectOutcome.ok ["echo"]) sampleConfig connectingClient rfl rfl rfl
  exact ⟨hconn rfl, hing rfl⟩

/-- C3 (code-bug evidence): installing the `filesystem` template (whose
arguments contain the workspace-path placeholder) twice with a real
workspace folder succeeds BOTH times — the duplicate check compares the
stored, substituted arguments against the template's raw arguments — while
a placeholder-free template (`github`) is correctly rejected the second
time. -/
theorem install_from_market_placeholder_duplicate :
    (installTwice "/home/user/project" "filesystem" ⟨[], 0⟩).toOption.map
        (fun st => st.configs.length) = some 2 ∧
    installTwice "/home/user/project" "github" ⟨[], 0⟩ =
      Except.error "GitHub is already installed" := by
  constructor
  · decide
  · rfl

end CodeSidecar
